import Mathlib

/-!
Shallow embedding of the orca-py core evaluator: glyph codec, grid
(`src/orca/grid.py`), ports (`src/orca/ports.py`), operators
(`src/orca/operators.py`) and the per-frame evaluator
(`scripts/renderer.py`).  Python list indexing (negative wrap-around,
`IndexError`) is modelled explicitly; a raised exception is modelled as
`none` in `Option`.
-/

/-- Glyphs are single characters, as in the Python source where every grid
cell holds a one-character string. -/
abbrev Glyph := Char

/-- BANG_GLYPH from grid.py. -/
def BANG_GLYPH : Glyph := '*'

/-- DOT_GLYPH from grid.py. -/
def DOT_GLYPH : Glyph := '.'

/-- COMMENT_GLYPH from grid.py. -/
def COMMENT_GLYPH : Glyph := '#'

/-- GLYPH_TABLE from grid.py: the 36-symbol value alphabet, the digits
followed by the lower-case letters in order. -/
def GLYPH_TABLE : List Glyph :=
  "0123456789abcdefghijklmnopqrstuvwxyz".toList

/-- index_of_orca_js from grid.py: INDEX_TO_GLYPH.get(c.lower(), -1).
INDEX_TO_GLYPH maps each table glyph to its index, so this is the index of
the lower-cased character in GLYPH_TABLE, or -1 when absent. -/
def glyph_table_index_of (c : Glyph) : Int :=
  match GLYPH_TABLE.findIdx? (fun g => g = c.toLower) with
  | some i => (i : Int)
  | none => -1

/-- glyph_to_value from grid.py.  The Python argument may be a glyph, None
or the empty string; `none` models None/absent (the empty string does not
arise from grid reads). -/
def glyph_to_value : Option Glyph → Int
  | none => 0
  | some g => if g = DOT_GLYPH ∨ g = BANG_GLYPH then 0 else glyph_table_index_of g

/-- Python list subscript semantics: `l[i]` wraps negative indices once and
raises IndexError (here `none`) when still out of range. -/
def pyIdx (n : Nat) (i : Int) : Option Nat :=
  if 0 ≤ i then
    if i < (n : Int) then some i.toNat else none
  else
    if -(n : Int) ≤ i then some (i + (n : Int)).toNat else none

/-- Python read `l[i]`. -/
def pyGet {α : Type} (l : List α) (i : Int) : Option α :=
  match pyIdx l.length i with
  | some j => l.get? j
  | none => none

/-- Python write `l[i] = a`; `none` models IndexError. -/
def pySet {α : Type} (l : List α) (i : Int) (a : α) : Option (List α) :=
  match pyIdx l.length i with
  | some j => some (l.set j a)
  | none => none

/-- Modelled from the spec: MidiNoteOnEvent is constructed in
Midi.operation and imported from orca.grid, but its class definition is
missing from src/.  Spec section 3 declares it as the record
(channel, octave, note, velocity, length); the note field holds the glyph
read from the note cell (which the code never checks for absence, hence
Option). -/
structure MidiNoteOnEvent where
  channel : Int
  octave : Int
  note : Option Glyph
  velocity : Int
  length : Int
deriving Repr, DecidableEq

/-- OrcaGrid from grid.py: glyph state, lock mask and the frame's MIDI
event queue. -/
structure OrcaGrid where
  rows : Nat
  cols : Nat
  state : List (List Glyph)
  locks : List (List Bool)
  midi_events : List MidiNoteOnEvent
deriving Repr, DecidableEq

/-- OrcaGrid.peek: `self._state[y][x]` under try/except IndexError,
returning None (here `none`) when the subscript raises.  Negative indices
wrap, exactly as in Python. -/
def OrcaGrid.peek (g : OrcaGrid) (x y : Int) : Option Glyph :=
  match pyGet g.state y with
  | none => none
  | some row => pyGet row x

/-- OrcaGrid.poke: `self._state[y][x] = value` under try/except
IndexError; the grid is returned unchanged when the subscript raises. -/
def OrcaGrid.poke (g : OrcaGrid) (x y : Int) (v : Glyph) : OrcaGrid :=
  match pyGet g.state y with
  | none => g
  | some row =>
    match pySet row x v with
    | none => g
    | some row2 =>
      match pySet g.state y row2 with
      | some st => { g with state := st }
      | none => g

/-- OrcaGrid.lock: `self._locks[y][x] = True` with no exception handler;
`none` models the IndexError escaping. -/
def OrcaGrid.lock (g : OrcaGrid) (x y : Int) : Option OrcaGrid :=
  match pyGet g.locks y with
  | none => none
  | some row =>
    match pySet row x true with
    | none => none
    | some row2 =>
      match pySet g.locks y row2 with
      | some lk => some { g with locks := lk }
      | none => none

/-- OrcaGrid.is_locked: `self._locks[y][x]`, again with no handler. -/
def OrcaGrid.is_locked (g : OrcaGrid) (x y : Int) : Option Bool :=
  match pyGet g.locks y with
  | none => none
  | some row => pyGet row x

/-- OrcaGrid.reset_locks: a fresh all-false rows x cols lock mask. -/
def OrcaGrid.reset_locks (g : OrcaGrid) : OrcaGrid :=
  { g with locks := List.replicate g.rows (List.replicate g.cols false) }

/-- Modelled from the spec: grid.reset_for_frame is called by update_grid
in scripts/renderer.py but its definition is missing from src/ (grid.py
only defines reset_locks).  Spec section 4.2: it clears locks and the MIDI
queue. -/
def OrcaGrid.reset_for_frame (g : OrcaGrid) : OrcaGrid :=
  { g.reset_locks with midi_events := [] }

/-- Modelled from the spec: grid.is_inside is called by IOperator.move in
src/orca/operators.py but is missing from grid.py.  Spec section 4.2
lists `is_inside(x,y)`; sections 7 and 8 (movement into a wall explodes)
pin its meaning: the coordinate lies within the rows x cols bounds. -/
def OrcaGrid.is_inside (g : OrcaGrid) (x y : Int) : Bool :=
  0 ≤ x ∧ x < (g.cols : Int) ∧ 0 ≤ y ∧ y < (g.rows : Int)

/-- Modelled from the spec: grid.push_midi is called by Midi.operation in
src/orca/operators.py but is missing from grid.py.  Spec sections 4.2 and
5: it appends the event to the frame's queue, preserving insertion
order. -/
def OrcaGrid.push_midi (g : OrcaGrid) (e : MidiNoteOnEvent) : OrcaGrid :=
  { g with midi_events := g.midi_events ++ [e] }

/-- IPort/InputPort/OutputPort from ports.py, flattened into one record:
inputs leave is_sensitive/is_bang at their false defaults, exactly as
InputPort instances answer False for both flags in the source checks. -/
structure Port where
  x : Int
  y : Int
  clamp : Int → Int := fun v => v
  default : Option Glyph := none
  is_sensitive : Bool := false
  is_bang : Bool := false

/-- OrcaGrid.listen: peek the port's cell; when the cell reads DOT or BANG
and the port has a (truthy) default, substitute the default. -/
def OrcaGrid.listen (g : OrcaGrid) (p : Port) : Option Glyph :=
  match g.peek p.x p.y, p.default with
  | some c, some d => if c = DOT_GLYPH ∨ c = BANG_GLYPH then some d else some c
  | gl, _ => gl

/-- OrcaGrid.listen_as_value: port.clamp(value_of(listen(port))). -/
def OrcaGrid.listen_as_value (g : OrcaGrid) (p : Port) : Int :=
  p.clamp (glyph_to_value (g.listen p))

/-- OrcaGrid.key_of: GLYPH_TABLE[index % GLYPH_TABLE_SIZE], upper-cased on
request.  The Python % has a positive constant divisor, where it agrees
with Int.emod. -/
def OrcaGrid.key_of (index : Int) (upper_case : Bool := false) : Glyph :=
  let glyph := GLYPH_TABLE.getD (index % 36).toNat '?'
  if upper_case then glyph.toUpper else glyph

/-- Operator opcodes reachable from the renderer dispatch table
_CHAR_TO_OPERATOR_CLASS (scripts/renderer.py).  The Jumper class in
operators.py is not in that table (its glyph slot 'f' is taken by If), so
it is never constructed by the evaluator. -/
inductive OpKind
  | add | substract | clock | delay | east | west | north | south
  | ifOp | generator | halt | increment | multiply | random | track
  | bang | comment | midi
deriving Repr, DecidableEq

/-- The class-fixed glyph passed to IOperator.__init__ by each subclass. -/
def OpKind.classGlyph : OpKind → Glyph
  | .add => 'a'
  | .substract => 'b'
  | .clock => 'c'
  | .delay => 'd'
  | .east => 'e'
  | .west => 'w'
  | .north => 'n'
  | .south => 's'
  | .ifOp => 'f'
  | .generator => 'g'
  | .halt => 'h'
  | .increment => 'i'
  | .multiply => 'm'
  | .random => 'r'
  | .track => 't'
  | .bang => '*'
  | .comment => '#'
  | .midi => ':'

/-- An operator instance as constructed by operator_factory: its kind, its
construction-time coordinates, is_passive, and the glyph field set by
IOperator.__init__ (class glyph, upper-cased when passive).  Movement
operators mutate self.x/self.y and self.is_passive during their
operation, but nothing observes those fields afterwards in a tick, so the
mutation is not carried. -/
structure Operator where
  kind : OpKind
  x : Int
  y : Int
  is_passive : Bool
  glyph : Glyph
deriving Repr, DecidableEq

/-- The payload returned by an operation: a glyph, a boolean (bang-output
operators), or Python None. -/
inductive Payload
  | glyph (g : Glyph)
  | bool (b : Bool)
  | nothing
deriving Repr, DecidableEq

/-- Python truthiness of a payload: a one-character string is truthy, None
is falsy. -/
def Payload.truthy : Payload → Bool
  | .glyph _ => true
  | .bool b => b
  | .nothing => false

/-- clamp `lambda x: max(1, x)` used by the rate and len ports. -/
def clampMin1 : Int → Int := fun v => max 1 v

/-- clamp `lambda x: min(max(0, x), hi)` used by the MIDI ports. -/
def clamp0 (hi : Int) : Int → Int := fun v => min (max 0 v) hi

/-- Input port a at (-1, 0), shared by add/substract/if/multiply, and also
the min port of random. -/
def Operator.port_a (op : Operator) : Port := { x := op.x - 1, y := op.y }

/-- Input port b at (+1, 0), shared by add/substract/if/multiply, and also
the max port of random. -/
def Operator.port_b (op : Operator) : Port := { x := op.x + 1, y := op.y }

/-- rate port of clock and delay: (-1, 0), clamped to at least 1. -/
def Operator.port_rate (op : Operator) : Port :=
  { x := op.x - 1, y := op.y, clamp := clampMin1 }

/-- mod port of clock and delay: (+1, 0), default glyph '8'. -/
def Operator.port_mod8 (op : Operator) : Port :=
  { x := op.x + 1, y := op.y, default := some '8' }

/-- step port of increment: (-1, 0), default glyph '1'. -/
def Operator.port_step (op : Operator) : Port :=
  { x := op.x - 1, y := op.y, default := some '1' }

/-- mod port of increment: (+1, 0), no default. -/
def Operator.port_mod (op : Operator) : Port := { x := op.x + 1, y := op.y }

/-- x port of generator: (-3, 0). -/
def Operator.port_gen_x (op : Operator) : Port := { x := op.x - 3, y := op.y }

/-- y port of generator: (-2, 0). -/
def Operator.port_gen_y (op : Operator) : Port := { x := op.x - 2, y := op.y }

/-- len port of generator and track: (-1, 0), clamped to at least 1. -/
def Operator.port_len (op : Operator) : Port :=
  { x := op.x - 1, y := op.y, clamp := clampMin1 }

/-- key port of track: (-2, 0). -/
def Operator.port_key (op : Operator) : Port := { x := op.x - 2, y := op.y }

/-- channel port of midi: (+1, 0), no clamp. -/
def Operator.port_channel (op : Operator) : Port := { x := op.x + 1, y := op.y }

/-- octave port of midi: (+2, 0), clamped to 0..8. -/
def Operator.port_octave (op : Operator) : Port :=
  { x := op.x + 2, y := op.y, clamp := clamp0 8 }

/-- note port of midi: (+3, 0). -/
def Operator.port_note (op : Operator) : Port := { x := op.x + 3, y := op.y }

/-- velocity port of midi: (+4, 0), default 'f', clamped to 0..16. -/
def Operator.port_velocity (op : Operator) : Port :=
  { x := op.x + 4, y := op.y, default := some 'f', clamp := clamp0 16 }

/-- length port of midi: (+5, 0), clamped to 0..32. -/
def Operator.port_length (op : Operator) : Port :=
  { x := op.x + 5, y := op.y, clamp := clamp0 32 }

/-- Sensitive output port at (0, +1), used by add, substract, clock,
increment, multiply and random. -/
def Operator.out_sens (op : Operator) : Port :=
  { x := op.x, y := op.y + 1, is_sensitive := true }

/-- Bang output port at (0, +1), used by delay and if. -/
def Operator.out_bang (op : Operator) : Port :=
  { x := op.x, y := op.y + 1, is_bang := true }

/-- Plain output port at (0, +1), used by track. -/
def Operator.out_plain (op : Operator) : Port := { x := op.x, y := op.y + 1 }

/-- The values of the ports dict as filled in by each subclass's
__init__, in insertion order, output port included where declared. -/
def Operator.base_ports (op : Operator) : List Port :=
  match op.kind with
  | .add => [op.port_a, op.port_b, op.out_sens]
  | .substract => [op.port_a, op.port_b, op.out_sens]
  | .clock => [op.port_rate, op.port_mod8, op.out_sens]
  | .delay => [op.port_rate, op.port_mod8, op.out_bang]
  | .ifOp => [op.port_a, op.port_b, op.out_bang]
  | .generator => [op.port_gen_x, op.port_gen_y, op.port_len]
  | .increment => [op.port_step, op.port_mod, op.out_sens]
  | .multiply => [op.port_a, op.port_b, op.out_sens]
  | .random => [op.port_a, op.port_b, op.out_sens]
  | .track => [op.port_key, op.port_len, op.out_plain]
  | .midi => [op.port_channel, op.port_octave, op.port_note,
              op.port_velocity, op.port_length]
  | _ => []

/-- The port registered under the name "output", when any. -/
def Operator.output_port (op : Operator) : Option Port :=
  match op.kind with
  | .add => some op.out_sens
  | .substract => some op.out_sens
  | .clock => some op.out_sens
  | .delay => some op.out_bang
  | .ifOp => some op.out_bang
  | .increment => some op.out_sens
  | .multiply => some op.out_sens
  | .random => some op.out_sens
  | .track => some op.out_plain
  | _ => none

/-- IOperator.has_neighbor: any of the four orthogonal neighbors (peeked
with Python index semantics) equals the glyph. -/
def Operator.has_neighbor (op : Operator) (g : OrcaGrid) (glyph : Glyph) : Bool :=
  g.peek (op.x - 1) op.y = some glyph ∨ g.peek (op.x + 1) op.y = some glyph ∨
    g.peek op.x (op.y - 1) = some glyph ∨ g.peek op.x (op.y + 1) = some glyph

/-- IOperator._should_upper_case: False unless the output port exists and
is sensitive; then the right neighbor is listened to (no default).  When
that cell is absent the Python code calls .lower() on None, raising
AttributeError, modelled by `none`. -/
def Operator.should_upper_case (op : Operator) (g : OrcaGrid) : Option Bool :=
  match op.output_port with
  | none => some false
  | some p =>
    if ¬ p.is_sensitive then some false
    else
      match g.listen { x := op.x + 1, y := op.y } with
      | none => none
      | some v =>
        if v.toLower = v.toUpper ∨ v.toUpper ≠ v then some false else some true

/-- IOperator._output for a given target port: nothing is written when the
glyph payload is None; otherwise the payload is upper-cased when
_should_upper_case fires and poked at the port. -/
def Operator.output_write (op : Operator) (g : OrcaGrid) (port : Port)
    (glyph : Option Glyph) : Option OrcaGrid :=
  match glyph with
  | none => some g
  | some gl =>
    match op.should_upper_case g with
    | none => none
    | some b => some (g.poke port.x port.y (if b then gl.toUpper else gl))

/-- IOperator.move: explode (poke BANG at the own cell) when the
destination is outside the grid or holds a glyph other than DOT/BANG;
otherwise erase the origin, write the operator glyph at the destination
and lock it. -/
def Operator.moveBy (op : Operator) (g : OrcaGrid) (dx dy : Int) : Option OrcaGrid :=
  let nx := op.x + dx
  let ny := op.y + dy
  if ¬ g.is_inside nx ny then some (g.poke op.x op.y BANG_GLYPH)
  else
    let collider := g.peek nx ny
    if collider ≠ some BANG_GLYPH ∧ collider ≠ some DOT_GLYPH then
      some (g.poke op.x op.y BANG_GLYPH)
    else
      let g1 := (g.poke op.x op.y DOT_GLYPH).poke nx ny op.glyph
      if g1.is_inside nx ny then g1.lock nx ny else some g1

/-- Python `a % b`: floored modulo, ZeroDivisionError (none) on b = 0. -/
def pyMod (a b : Int) : Option Int := if b = 0 then none else some (Int.fmod a b)

/-- Python `range(a, b)` as a list of integers. -/
def pyRange (a b : Int) : List Int :=
  if a < b then (List.range (b - a).toNat).map (fun k => a + (k : Int)) else []

/-- Comment.operation's loop: lock each cell from the current column
rightward, stopping right after locking a cell that holds the comment
glyph. -/
def commentLock (y : Int) (stop : Glyph) : OrcaGrid → List Int → Option OrcaGrid
  | g, [] => some g
  | g, xi :: rest => do
    let g1 ← g.lock xi y
    if g1.peek xi y = some stop then some g1 else commentLock y stop g1 rest

/-- _NOTES_VALUES from operators.py. -/
def NOTES_VALUES : List Glyph := "CcDdEFfGgAaB".toList

/-- NOTE_TO_INDEX from operators.py, as an association list. -/
def NOTE_TO_INDEX : List (Glyph × Nat) := NOTES_VALUES.enum.map (fun p => (p.2, p.1))

/-- A source of random integers standing for Python's global
random.randint PRNG, injected so the evaluator stays a function. -/
abbrev Rng := Int → Int → Int

/-- The per-opcode operation (frame, force) bodies from operators.py.
Returns the payload, the possibly mutated grid, and the ports added to
the ports dict during the call (Generator only); `none` models an
exception escaping the call (ZeroDivisionError in Clock/Delay,
IndexError from an unguarded lock, ValueError from randint). -/
def Operator.operation (op : Operator) (rng : Rng) (g : OrcaGrid) (frame : Nat)
    (force : Bool) : Option (Payload × OrcaGrid × List Port) :=
  match op.kind with
  | .add =>
    let index := g.listen_as_value op.port_a + g.listen_as_value op.port_b
    some (.glyph (OrcaGrid.key_of index), g, [])
  | .substract =>
    let a := g.listen_as_value op.port_a
    let b := g.listen_as_value op.port_b
    some (.glyph (OrcaGrid.key_of ((b - a).natAbs : Int)), g, [])
  | .clock =>
    let rate := g.listen_as_value op.port_rate
    let mod := g.listen_as_value op.port_mod8
    match pyMod (Int.fdiv (frame : Int) rate) mod with
    | none => none
    | some v => some (.glyph (OrcaGrid.key_of v), g, [])
  | .delay =>
    let rate := g.listen_as_value op.port_rate
    let mod := g.listen_as_value op.port_mod8
    match pyMod (frame : Int) (mod * rate) with
    | none => none
    | some v => some (.bool (v = 0 ∨ mod = 1), g, [])
  | .east => (op.moveBy g 1 0).map (fun g1 => (.nothing, g1, []))
  | .west => (op.moveBy g (-1) 0).map (fun g1 => (.nothing, g1, []))
  | .north => (op.moveBy g 0 (-1)).map (fun g1 => (.nothing, g1, []))
  | .south => (op.moveBy g 0 1).map (fun g1 => (.nothing, g1, []))
  | .ifOp =>
    let a := g.listen op.port_a
    let b := g.listen op.port_b
    some (.bool (a = b), g, [])
  | .generator =>
    let length := g.listen_as_value op.port_len
    let x0 := g.listen_as_value op.port_gen_x
    let y0 := g.listen_as_value op.port_gen_y + 1
    let step := fun (acc : OrcaGrid × List Port) (offset : Int) => do
      let input_port : Port := { x := op.x + offset + 1, y := op.y }
      let out_port : Port := { x := op.x + x0 + offset, y := op.y + y0 }
      let res := acc.1.listen input_port
      let g2 ← op.output_write acc.1 out_port res
      pure (g2, acc.2 ++ [input_port, out_port])
    ((pyRange 0 length).foldlM step (g, [])).map
      (fun acc => (Payload.nothing, acc.1, acc.2))
  | .halt => (g.lock op.x (op.y + 1)).map (fun g1 => (.nothing, g1, []))
  | .increment =>
    let step := g.listen_as_value op.port_step
    let mod := g.listen_as_value op.port_mod
    let out := g.listen_as_value op.out_sens
    some (.glyph (OrcaGrid.key_of
      (Int.fmod (out + step) (if mod > 0 then mod else 36))), g, [])
  | .multiply =>
    let a := g.listen_as_value op.port_a
    let b := g.listen_as_value op.port_b
    some (.glyph (OrcaGrid.key_of (a * b)), g, [])
  | .random =>
    let low := g.listen_as_value op.port_a
    let high := g.listen_as_value op.port_b
    if high < low then none
    else some (.glyph (OrcaGrid.key_of (rng low high)), g, [])
  | .track =>
    let key := g.listen_as_value op.port_key
    let length := g.listen_as_value op.port_len
    let g1q := (pyRange 0 length).foldlM
      (fun gr offset => gr.lock (op.x + offset + 1) op.y) g
    match g1q with
    | none => none
    | some g1 =>
      let port : Port := { x := op.x + 1 + Int.fmod key length, y := op.y }
      match g1.listen port with
      | some c => some (.glyph c, g1, [])
      | none => some (.nothing, g1, [])
  | .bang => some (.nothing, g.poke op.x op.y DOT_GLYPH, [])
  | .comment =>
    match g.lock op.x op.y with
    | none => none
    | some g1 =>
      (commentLock op.y op.glyph g1 (pyRange (op.x + 1) (g.cols : Int))).map
        (fun g2 => (Payload.nothing, g2, []))
  | .midi =>
    if ¬ op.has_neighbor g BANG_GLYPH ∧ ¬ force then some (.nothing, g, [])
    else if g.listen op.port_channel = some DOT_GLYPH then some (.nothing, g, [])
    else if g.listen op.port_octave = some DOT_GLYPH then some (.nothing, g, [])
    else if g.listen op.port_note = some DOT_GLYPH then some (.nothing, g, [])
    else
      let note := g.listen op.port_note
      if NOTE_TO_INDEX = [] then some (.nothing, g, [])
      else
        let channel := g.listen_as_value op.port_channel
        if channel > 15 then some (.nothing, g, [])
        else
          let octave := g.listen_as_value op.port_octave
          let velocity := g.listen_as_value op.port_velocity
          let length := g.listen_as_value op.port_length
          some (.nothing,
            g.push_midi ⟨channel, octave, note, velocity, length⟩, [])

/-- IOperator.run: call operation, lock every port of the ports dict
except bang outputs (Generator's dynamically registered ports included),
then write the output: BANG/DOT on a bang port by payload truthiness,
otherwise the payload glyph through the sensitivity rule. -/
def Operator.run (rng : Rng) (op : Operator) (g : OrcaGrid) (frame : Nat)
    (force : Bool := false) : Option OrcaGrid := do
  let (payload, g1, extra) ← op.operation rng g frame force
  let lockable := (op.base_ports ++ extra).filter (fun p => !p.is_bang)
  let g2 ← lockable.foldlM (fun gr p => gr.lock p.x p.y) g1
  match op.output_port with
  | none => pure g2
  | some p =>
    if p.is_bang then
      pure (g2.poke p.x p.y (if payload.truthy then BANG_GLYPH else DOT_GLYPH))
    else
      match payload with
      | .glyph c => op.output_write g2 p (some c)
      | .nothing => op.output_write g2 p none
      | .bool _ => pure g2

/-- _CHAR_TO_OPERATOR_CLASS from scripts/renderer.py. -/
def dispatchKind : Glyph → Option OpKind
  | 'a' => some .add
  | 'b' => some .substract
  | 'c' => some .clock
  | 'd' => some .delay
  | 'e' => some .east
  | 'f' => some .ifOp
  | 'g' => some .generator
  | 'h' => some .halt
  | 'i' => some .increment
  | 'm' => some .multiply
  | 'n' => some .north
  | 'r' => some .random
  | 's' => some .south
  | 't' => some .track
  | 'w' => some .west
  | '*' => some .bang
  | ':' => some .midi
  | '#' => some .comment
  | _ => none

/-- operator_factory from scripts/renderer.py: dispatch on the lower-cased
glyph, pass is_passive = grid_char.isupper().  Midi.__init__ overrides
is_passive to True regardless of the argument. -/
def operator_factory (c : Glyph) (x y : Int) : Option Operator :=
  match dispatchKind c.toLower with
  | none => none
  | some k =>
    let p := if k = OpKind.midi then true else c.isUpper
    some { kind := k, x := x, y := y, is_passive := p,
           glyph := if p then k.classGlyph.toUpper else k.classGlyph }

/-- One row of parse_grid: every non-DOT cell for which the factory finds
an operator class yields an operator. -/
def parse_row (y : Nat) (row : List Glyph) : List Operator :=
  row.enum.filterMap (fun xc =>
    if xc.2 = DOT_GLYPH then none else operator_factory xc.2 (xc.1 : Int) (y : Int))

/-- parse_grid from scripts/renderer.py: scan rows top to bottom, cells
left to right. -/
def parse_grid (g : OrcaGrid) : List Operator :=
  (g.state.enum.map (fun yr => parse_row yr.1 yr.2)).flatten

/-- The body of update_grid's loop for one discovered operator: skip when
its cell is locked, run when passive or next to a BANG. -/
def tick_step (rng : Rng) (frame : Nat) (g : OrcaGrid) (op : Operator) :
    Option OrcaGrid := do
  let locked ← g.is_locked op.x op.y
  if locked then pure g
  else if op.is_passive || op.has_neighbor g BANG_GLYPH then op.run rng g frame
  else pure g

/-- update_grid's loop over the discovered operators. -/
def tick_ops (rng : Rng) (frame : Nat) (ops : List Operator) (g : OrcaGrid) :
    Option OrcaGrid :=
  ops.foldlM (tick_step rng frame) g

/-- update_grid from scripts/renderer.py: reset locks and the MIDI queue,
discover operators in row-major order, then run each unlocked activated
operator in turn. -/
def update_grid (rng : Rng) (g : OrcaGrid) (frame : Nat) : Option OrcaGrid :=
  let g0 := g.reset_for_frame
  tick_ops rng frame (parse_grid g0) g0

/-- Grid construction from literal rows, as OrcaGrid.from_string followed
by __init__ produces it (size validation aside): dimensions from the
lines, glyph state from the lines, all-false locks, empty queue. -/
def mkGrid (lines : List (List Glyph)) : OrcaGrid :=
  { rows := lines.length
    cols := (lines.headD []).length
    state := lines
    locks := List.replicate lines.length
      (List.replicate (lines.headD []).length false)
    midi_events := [] }

/-- A fixed stand-in for Python's global PRNG, used to close theorems
about grids that contain no random operator. -/
def rng0 : Rng := fun _ _ => 0

/-- Well-formedness of a grid: the state and lock matrices have exactly
the advertised rows x cols shape.  from_string establishes this and no
grid method changes a row count or length. -/
def OrcaGrid.WF (g : OrcaGrid) : Prop :=
  g.state.length = g.rows ∧ (∀ row ∈ g.state, row.length = g.cols) ∧
    g.locks.length = g.rows ∧ (∀ row ∈ g.locks, row.length = g.cols)

instance (g : OrcaGrid) : Decidable g.WF := by
  unfold OrcaGrid.WF; infer_instance

/-! Auxiliary lemmas about the Python indexing model. -/

lemma pyIdx_some_lt {n : Nat} {i : Int} {j : Nat} (h : pyIdx n i = some j) : j < n := by
  unfold pyIdx at h
  split_ifs at h with h0 h1 h2 <;> simp_all <;> omega

lemma pyIdx_inb {n : Nat} {i : Int} (h0 : 0 ≤ i) (h1 : i < (n : Int)) :
    pyIdx n i = some i.toNat := by
  unfold pyIdx
  rw [if_pos h0, if_pos h1]

lemma pyGet_inb {α : Type} {l : List α} {i : Int} (h0 : 0 ≤ i)
    (h1 : i < (l.length : Int)) : pyGet l i = l[i.toNat]? := by
  unfold pyGet
  rw [pyIdx_inb h0 h1]
  exact List.get?_eq_getElem? l i.toNat

lemma pySet_inb {α : Type} {l : List α} {i : Int} {a : α} (h0 : 0 ≤ i)
    (h1 : i < (l.length : Int)) : pySet l i a = some (l.set i.toNat a) := by
  unfold pySet
  rw [pyIdx_inb h0 h1]

lemma pyGet_replicate {α : Type} {n : Nat} {a : α} {i : Int} :
    pyGet (List.replicate n a) i = (pyIdx n i).map (fun _ => a) := by
  unfold pyGet
  rw [List.length_replicate]
  cases h : pyIdx n i with
  | none => rfl
  | some j =>
    have := pyIdx_some_lt h
    simp [List.get?_eq_getElem?, List.getElem?_replicate, this]

/-! Field-preservation facts for the grid primitives. -/

lemma poke_rows (g : OrcaGrid) (x y : Int) (v : Glyph) : (g.poke x y v).rows = g.rows := by
  unfold OrcaGrid.poke
  repeat' split
  all_goals rfl

lemma poke_cols (g : OrcaGrid) (x y : Int) (v : Glyph) : (g.poke x y v).cols = g.cols := by
  unfold OrcaGrid.poke
  repeat' split
  all_goals rfl

lemma poke_locks (g : OrcaGrid) (x y : Int) (v : Glyph) : (g.poke x y v).locks = g.locks := by
  unfold OrcaGrid.poke
  repeat' split
  all_goals rfl

lemma poke_midi (g : OrcaGrid) (x y : Int) (v : Glyph) :
    (g.poke x y v).midi_events = g.midi_events := by
  unfold OrcaGrid.poke
  repeat' split
  all_goals rfl

lemma lock_fields {g g' : OrcaGrid} {x y : Int} (h : g.lock x y = some g') :
    g'.rows = g.rows ∧ g'.cols = g.cols ∧ g'.state = g.state ∧
      g'.midi_events = g.midi_events := by
  unfold OrcaGrid.lock at h
  repeat' split at h
  all_goals simp_all
  subst h
  simp

/-! Characterizations of the grid primitives in terms of resolved list
indices, used by the movement and locking claims. -/

lemma pyGet_def {α : Type} (l : List α) (i : Int) :
    pyGet l i = (pyIdx l.length i).bind (fun j => l[j]?) := by
  unfold pyGet
  cases pyIdx l.length i <;> simp [List.get?_eq_getElem?]

lemma pySet_def {α : Type} (l : List α) (i : Int) (a : α) :
    pySet l i a = (pyIdx l.length i).map (fun j => l.set j a) := by
  unfold pySet
  cases pyIdx l.length i <;> simp

lemma peek_def (g : OrcaGrid) (x y : Int) :
    g.peek x y = (pyGet g.state y).bind (fun row => pyGet row x) := by
  unfold OrcaGrid.peek
  cases pyGet g.state y <;> simp

lemma is_locked_def (g : OrcaGrid) (x y : Int) :
    g.is_locked x y = (pyGet g.locks y).bind (fun row => pyGet row x) := by
  unfold OrcaGrid.is_locked
  cases pyGet g.locks y <;> simp

lemma poke_eq_of {g : OrcaGrid} {x y : Int} {v : Glyph} {j i : Nat} {row : List Glyph}
    (hj : pyIdx g.state.length y = some j) (hrow : g.state[j]? = some row)
    (hi : pyIdx row.length x = some i) :
    g.poke x y v = { g with state := g.state.set j (row.set i v) } := by
  have hg : pyGet g.state y = some row := by rw [pyGet_def, hj]; simpa
  have hs1 : pySet row x v = some (row.set i v) := by rw [pySet_def, hi]; rfl
  have hs2 : pySet g.state y (row.set i v) = some (g.state.set j (row.set i v)) := by
    rw [pySet_def, hj]; rfl
  simp only [OrcaGrid.poke, hg, hs1, hs2]

lemma poke_spec (g : OrcaGrid) (x y : Int) (v : Glyph) :
    g.poke x y v = g ∨
      ∃ j row i, pyIdx g.state.length y = some j ∧ g.state[j]? = some row ∧
        pyIdx row.length x = some i ∧
        g.poke x y v = { g with state := g.state.set j (row.set i v) } := by
  cases hg : pyGet g.state y with
  | none => left; unfold OrcaGrid.poke; rw [hg]
  | some row =>
    rw [pyGet_def] at hg
    cases hj : pyIdx g.state.length y with
    | none => rw [hj] at hg; cases hg
    | some j =>
      rw [hj] at hg
      simp only [Option.some_bind] at hg
      cases hi : pyIdx row.length x with
      | none =>
        left
        have hg' : pyGet g.state y = some row := by rw [pyGet_def, hj]; simpa
        have hs : pySet row x v = none := by rw [pySet_def, hi]; rfl
        simp only [OrcaGrid.poke, hg', hs]
      | some i =>
        right
        exact ⟨j, row, i, rfl, hg, hi, poke_eq_of hj hg hi⟩

lemma lock_eq_of {g : OrcaGrid} {x y : Int} {j i : Nat} {row : List Bool}
    (hj : pyIdx g.locks.length y = some j) (hrow : g.locks[j]? = some row)
    (hi : pyIdx row.length x = some i) :
    g.lock x y = some { g with locks := g.locks.set j (row.set i true) } := by
  have hg : pyGet g.locks y = some row := by rw [pyGet_def, hj]; simpa
  have hs1 : pySet row x true = some (row.set i true) := by rw [pySet_def, hi]; rfl
  have hs2 : pySet g.locks y (row.set i true) = some (g.locks.set j (row.set i true)) := by
    rw [pySet_def, hj]; rfl
  simp only [OrcaGrid.lock, hg, hs1, hs2]

lemma lock_spec {g g' : OrcaGrid} {x y : Int} (h : g.lock x y = some g') :
    ∃ j row i, pyIdx g.locks.length y = some j ∧ g.locks[j]? = some row ∧
      pyIdx row.length x = some i ∧
      g' = { g with locks := g.locks.set j (row.set i true) } := by
  cases hg : pyGet g.locks y with
  | none => unfold OrcaGrid.lock at h; rw [hg] at h; cases h
  | some row =>
    have hg0 := hg
    rw [pyGet_def] at hg0
    cases hj : pyIdx g.locks.length y with
    | none => rw [hj] at hg0; cases hg0
    | some j =>
      rw [hj] at hg0
      simp only [Option.some_bind] at hg0
      cases hi : pyIdx row.length x with
      | none =>
        have hs : pySet row x true = none := by rw [pySet_def, hi]; rfl
        simp only [OrcaGrid.lock, hg, hs] at h
        cases h
      | some i =>
        refine ⟨j, row, i, rfl, hg0, hi, ?_⟩
        have := lock_eq_of hj hg0 hi
        rw [this] at h
        exact (Option.some_inj.mp h).symm

lemma WF_poke {g : OrcaGrid} (hwf : g.WF) (x y : Int) (v : Glyph) :
    (g.poke x y v).WF := by
  rcases poke_spec g x y v with h | ⟨j, row, i, hj, hrow, hi, h⟩
  · rw [h]; exact hwf
  · obtain ⟨h1, h2, h3, h4⟩ := hwf
    rw [h]
    refine ⟨by simpa using h1, ?_, h3, h4⟩
    intro r hr
    rcases List.mem_or_eq_of_mem_set hr with hmem | heq
    · exact h2 r hmem
    · subst heq
      rw [List.length_set]
      exact h2 row (List.getElem?_mem hrow)

lemma WF_lock {g g' : OrcaGrid} (hwf : g.WF) {x y : Int} (h : g.lock x y = some g') :
    g'.WF := by
  obtain ⟨j, row, i, hj, hrow, hi, rfl⟩ := lock_spec h
  obtain ⟨h1, h2, h3, h4⟩ := hwf
  refine ⟨h1, h2, by simpa using h3, ?_⟩
  intro r hr
  rcases List.mem_or_eq_of_mem_set hr with hmem | heq
  · exact h4 r hmem
  · subst heq
    rw [List.length_set]
    exact h4 row (List.getElem?_mem hrow)

lemma is_inside_iff {g : OrcaGrid} {x y : Int} :
    g.is_inside x y = true ↔
      0 ≤ x ∧ x < (g.cols : Int) ∧ 0 ≤ y ∧ y < (g.rows : Int) := by
  simp [OrcaGrid.is_inside]

lemma peek_inside_eq {g : OrcaGrid} (hwf : g.WF) {x y : Int}
    (hin : g.is_inside x y = true) :
    ∃ row, g.state[y.toNat]? = some row ∧ row.length = g.cols ∧
      g.peek x y = row[x.toNat]? := by
  obtain ⟨hx0, hx1, hy0, hy1⟩ := is_inside_iff.mp hin
  obtain ⟨h1, h2, _, _⟩ := hwf
  have hylt : y.toNat < g.state.length := by omega
  have hrow : g.state[y.toNat]? = some g.state[y.toNat] := List.getElem?_eq_getElem hylt
  have hlen : g.state[y.toNat].length = g.cols := h2 _ (List.getElem?_mem hrow)
  refine ⟨g.state[y.toNat], hrow, hlen, ?_⟩
  rw [peek_def, pyGet_def]
  rw [pyIdx_inb hy0 (by omega)]
  simp only [Option.some_bind, hrow]
  rw [pyGet_def, pyIdx_inb hx0 (by omega)]
  rfl

lemma peek_inside_isSome {g : OrcaGrid} (hwf : g.WF) {x y : Int}
    (hin : g.is_inside x y = true) : ∃ c, g.peek x y = some c := by
  obtain ⟨row, hrow, hlen, hpeek⟩ := peek_inside_eq hwf hin
  obtain ⟨hx0, hx1, _, _⟩ := is_inside_iff.mp hin
  have hxlt : x.toNat < row.length := by omega
  exact ⟨row[x.toNat], by rw [hpeek]; exact List.getElem?_eq_getElem hxlt⟩

lemma poke_inside_eq {g : OrcaGrid} (hwf : g.WF) {x y : Int} {v : Glyph}
    (hin : g.is_inside x y = true) :
    ∃ row, g.state[y.toNat]? = some row ∧ row.length = g.cols ∧
      g.poke x y v = { g with state := g.state.set y.toNat (row.set x.toNat v) } := by
  obtain ⟨hx0, hx1, hy0, hy1⟩ := is_inside_iff.mp hin
  obtain ⟨h1, h2, _, _⟩ := hwf
  have hylt : y.toNat < g.state.length := by omega
  have hrow : g.state[y.toNat]? = some g.state[y.toNat] := List.getElem?_eq_getElem hylt
  have hlen : g.state[y.toNat].length = g.cols := h2 _ (List.getElem?_mem hrow)
  refine ⟨g.state[y.toNat], hrow, hlen, ?_⟩
  exact poke_eq_of (by rw [h1]; exact pyIdx_inb hy0 (by omega)) hrow
    (by rw [hlen]; exact pyIdx_inb hx0 (by omega))

lemma peek_poke_self {g : OrcaGrid} (hwf : g.WF) {x y : Int} {v : Glyph}
    (hin : g.is_inside x y = true) : (g.poke x y v).peek x y = some v := by
  obtain ⟨hx0, hx1, hy0, hy1⟩ := is_inside_iff.mp hin
  obtain ⟨row, hrow, hlen, hpoke⟩ := poke_inside_eq hwf (v := v) hin
  have h1 : g.state.length = g.rows := hwf.1
  have hylt : y.toNat < g.state.length := by omega
  have hxlt : x.toNat < row.length := by omega
  rw [hpoke, peek_def, pyGet_def]
  simp only [List.length_set]
  rw [pyIdx_inb hy0 (by omega)]
  simp only [Option.some_bind]
  rw [List.getElem?_set]
  simp only [if_pos rfl, hylt, if_true, reduceIte]
  simp only [Option.some_bind]
  rw [pyGet_def]
  simp only [List.length_set]
  rw [pyIdx_inb hx0 (by omega)]
  simp only [Option.some_bind]
  rw [List.getElem?_set]
  simp [hxlt]

lemma peek_poke_other {g : OrcaGrid} (hwf : g.WF) {x y x' y' : Int} {v : Glyph}
    (hin : g.is_inside x y = true) (hin' : g.is_inside x' y' = true)
    (hne : ¬(x' = x ∧ y' = y)) : (g.poke x y v).peek x' y' = g.peek x' y' := by
  obtain ⟨hx0, hx1, hy0, hy1⟩ := is_inside_iff.mp hin
  obtain ⟨hx0', hx1', hy0', hy1'⟩ := is_inside_iff.mp hin'
  obtain ⟨row, hrow, hlen, hpoke⟩ := poke_inside_eq hwf (v := v) hin
  have h1 : g.state.length = g.rows := hwf.1
  have hylt : y.toNat < g.state.length := by omega
  rw [hpoke, peek_def, peek_def, pyGet_def, pyGet_def]
  simp only [List.length_set]
  rw [pyIdx_inb hy0' (by omega)]
  simp only [Option.some_bind]
  by_cases hyy : y'.toNat = y.toNat
  · have hy'eq : y' = y := by omega
    have hxx : x'.toNat ≠ x.toNat := by
      intro hc
      exact hne ⟨by omega, hy'eq⟩
    rw [hyy, List.getElem?_set]
    simp only [if_pos rfl, hylt, if_true, reduceIte]
    rw [hrow]
    simp only [Option.some_bind]
    rw [pyGet_def, pyGet_def]
    simp only [List.length_set]
    rcases hidx : pyIdx row.length x' with _ | i'
    · rfl
    · simp only [Option.some_bind]
      have hi'ne : x.toNat ≠ i' := by
        have := pyIdx_inb hx0' (by omega : x' < (row.length : Int))
        rw [this] at hidx
        cases hidx
        exact fun hc => hxx hc.symm
      rw [List.getElem?_set, if_neg hi'ne]
  · rw [List.getElem?_set, if_neg (fun hc => hyy hc.symm)]

/-- A cell is locked in the current frame: is_locked answers true. -/
def LockedAt (g : OrcaGrid) (x y : Int) : Prop := g.is_locked x y = some true

lemma lock_inside_some {g : OrcaGrid} (hwf : g.WF) {x y : Int}
    (hin : g.is_inside x y = true) : ∃ g', g.lock x y = some g' := by
  obtain ⟨hx0, hx1, hy0, hy1⟩ := is_inside_iff.mp hin
  obtain ⟨_, _, h3, h4⟩ := hwf
  have hylt : y.toNat < g.locks.length := by omega
  have hrow : g.locks[y.toNat]? = some g.locks[y.toNat] := List.getElem?_eq_getElem hylt
  have hlen : g.locks[y.toNat].length = g.cols := h4 _ (List.getElem?_mem hrow)
  exact ⟨_, lock_eq_of (by rw [h3]; exact pyIdx_inb hy0 (by omega)) hrow
    (by rw [hlen]; exact pyIdx_inb hx0 (by omega))⟩

lemma lock_self_locked {g g' : OrcaGrid} {x y : Int} (h : g.lock x y = some g') :
    LockedAt g' x y := by
  obtain ⟨j, row, i, hj, hrow, hi, rfl⟩ := lock_spec h
  have hjlt : j < g.locks.length := pyIdx_some_lt hj
  have hilt : i < row.length := pyIdx_some_lt hi
  unfold LockedAt
  rw [is_locked_def, pyGet_def]
  simp only [List.length_set]
  rw [hj]
  simp only [Option.some_bind]
  rw [List.getElem?_set]
  simp only [if_pos rfl, hjlt, if_true, reduceIte]
  simp only [Option.some_bind]
  rw [pyGet_def]
  simp only [List.length_set]
  rw [hi]
  simp only [Option.some_bind]
  rw [List.getElem?_set]
  simp [hilt]

lemma lock_mono {g g' : OrcaGrid} {a b x y : Int} (h : g.lock a b = some g')
    (hl : LockedAt g x y) : LockedAt g' x y := by
  obtain ⟨j, row, i, hj, hrow, hi, rfl⟩ := lock_spec h
  unfold LockedAt at hl ⊢
  rw [is_locked_def, pyGet_def] at hl
  rw [is_locked_def, pyGet_def]
  simp only [List.length_set]
  rcases hjy : pyIdx g.locks.length y with _ | j'
  · rw [hjy] at hl; cases hl
  · rw [hjy] at hl
    simp only [Option.some_bind] at hl ⊢
    rcases hrowy : g.locks[j']? with _ | rowY
    · rw [hrowy] at hl; cases hl
    · rw [hrowy] at hl
      simp only [Option.some_bind] at hl
      by_cases hjj : j = j'
      · subst hjj
        have hrow' : rowY = row := by
          rw [hrow] at hrowy; exact (Option.some_inj.mp hrowy).symm
        subst hrow'
        rw [List.getElem?_set]
        simp only [if_pos rfl, pyIdx_some_lt hj, if_true, reduceIte]
        simp only [Option.some_bind]
        rw [pyGet_def] at hl ⊢
        simp only [List.length_set]
        rcases hiy : pyIdx rowY.length x with _ | i'
        · rw [hiy] at hl; cases hl
        · rw [hiy] at hl
          simp only [Option.some_bind] at hl ⊢
          by_cases hii : i = i'
          · subst hii
            rw [List.getElem?_set]
            simp [pyIdx_some_lt hi]
          · rw [List.getElem?_set, if_neg hii]
            exact hl
      · rw [List.getElem?_set, if_neg hjj, hrowy]
        simp only [Option.some_bind]
        exact hl

lemma locks_poke (g : OrcaGrid) (x y a b : Int) (v : Glyph) :
    (g.poke x y v).is_locked a b = g.is_locked a b := by
  rw [is_locked_def, is_locked_def, poke_locks]

lemma locked_poke {g : OrcaGrid} {x y a b : Int} {v : Glyph}
    (hl : LockedAt g a b) : LockedAt (g.poke x y v) a b := by
  unfold LockedAt
  rw [locks_poke]
  exact hl

lemma locked_push {g : OrcaGrid} {a b : Int} {e : MidiNoteOnEvent}
    (hl : LockedAt g a b) : LockedAt (g.push_midi e) a b := hl

lemma locked_reset {g : OrcaGrid} {x y : Int} :
    (g.reset_for_frame).is_locked x y ≠ some true := by
  rw [is_locked_def]
  show ((pyGet (List.replicate g.rows (List.replicate g.cols false)) y).bind
    (fun row => pyGet row x)) ≠ some true
  rw [pyGet_replicate]
  cases pyIdx g.rows y with
  | none => simp
  | some j =>
    simp only [Option.map_some', Option.some_bind]
    rw [pyGet_replicate]
    cases pyIdx g.cols x <;> simp

/-! Claim theorems. -/

/-- C1: the claim says every out-of-bounds coordinate (x < 0 in
particular) peeks as the absent sentinel and pokes as a no-op.  The code
contradicts its own docstrings there: a Python subscript wraps negative
indices, so on a 2x2 grid peek(-1, 0) returns the glyph at (1, 0) instead
of the absent sentinel, and poke(-1, 0, 'x') overwrites the cell (1, 0)
instead of leaving the grid unchanged. -/
theorem c1_oob_negative_index_wraps :
    (mkGrid [['1', '2'], ['3', '4']]).peek (-1) 0 = some '2' ∧
      ((mkGrid [['1', '2'], ['3', '4']]).poke (-1) 0 'x').state
        = [['1', 'x'], ['3', '4']] := by decide

/-- C3: the claim says a tick never raises and a failing operation
degrades to a no-op.  On the grid "1C0" / "..." the passive Clock reads
mod = 0 and its operation divides by zero (ZeroDivisionError), which
escapes update_grid: the tick is `none`. -/
theorem c3_clock_mod_zero_raises :
    update_grid rng0 (mkGrid [['1', 'C', '0'], ['.', '.', '.']]) 0 = none := by
  decide

/-- C4: after reset_for_frame no cell is locked and the MIDI queue is
empty, for every grid, every prior lock/queue state and every
coordinate. -/
theorem c4_reset_for_frame_clears (g : OrcaGrid) (x y : Int) :
    (g.reset_for_frame).midi_events = [] ∧
      (g.reset_for_frame).is_locked x y ≠ some true :=
  ⟨rfl, locked_reset⟩

/-- C5: on the spec's comment-masking grid "#A#B" / ".*.*" the first
discovered operator is the Comment at (0, 0), but it is constructed
non-passive ('#' has no upper case) and has no BANG neighbor, so
tick_step skips it and locks nothing; the passive Add then runs inside
the comment span and the tick ends by raising (the passive Substract at
(3, 0) locks its b port at column 4, an unguarded IndexError), so no
cell between the two '#' was ever locked by a comment. -/
theorem c5_comment_skipped_operator_runs :
    (parse_grid ((mkGrid [['#', 'A', '#', 'B'], ['.', '*', '.', '*']]).reset_for_frame)).head?
        = some ⟨OpKind.comment, 0, 0, false, '#'⟩ ∧
      tick_step rng0 0 ((mkGrid [['#', 'A', '#', 'B'], ['.', '*', '.', '*']]).reset_for_frame)
          ⟨OpKind.comment, 0, 0, false, '#'⟩
        = some ((mkGrid [['#', 'A', '#', 'B'], ['.', '*', '.', '*']]).reset_for_frame) ∧
      update_grid rng0 (mkGrid [['#', 'A', '#', 'B'], ['.', '*', '.', '*']]) 0 = none := by
  decide

/-- C8: the claim says every pushed MidiNoteOnEvent has its note glyph in
NOTES_VALUES (and channel in 0..15).  The note membership check in
Midi.operation is the dead test `if not NOTE_TO_INDEX`, so banging ":13z4"
pushes an event whose note glyph 'z' is outside the declared set. -/
theorem c8_midi_event_note_outside_range :
    (update_grid rng0 (mkGrid [['*', ':', '1', '3', 'z', '4', '.'],
        ['.', '.', '.', '.', '.', '.', '.']]) 0).map OrcaGrid.midi_events
      = some [⟨1, 3, some 'z', 4, 0⟩] ∧ 'z' ∉ NOTES_VALUES := by decide

lemma glyph_table_value_roundtrip : ∀ r : Nat, r < 36 →
    glyph_to_value (some (GLYPH_TABLE.getD r '?')) = (r : Int) := by decide

/-- C9: decoding is a left inverse of encoding modulo 36: for every
integer n (negative included), glyph_to_value (key_of n) is the
mathematical n mod 36, a value in [0, 35]. -/
theorem c9_value_of_key_of (n : Int) :
    glyph_to_value (some (OrcaGrid.key_of n)) = n % 36 ∧
      0 ≤ n % 36 ∧ n % 36 < 36 := by
  have h0 : (0 : Int) ≤ n % 36 := Int.emod_nonneg n (by norm_num)
  have h1 : n % 36 < 36 := Int.emod_lt_of_pos n (by norm_num)
  have h2 : (n % 36).toNat < 36 := by omega
  have h3 := glyph_table_value_roundtrip (n % 36).toNat h2
  refine ⟨?_, h0, h1⟩
  have hk : OrcaGrid.key_of n = GLYPH_TABLE.getD (n % 36).toNat '?' := rfl
  rw [hk, h3, Int.toNat_of_nonneg h0]

/-- C6: for an operator with a non-bang output port and a glyph payload,
the written glyph is upper-cased exactly when the output port is
sensitive, the glyph immediately to the right of the operator has a
distinct upper/lower case and that glyph is currently upper case;
otherwise the payload is written exactly as produced by operation. -/
theorem c6_sensitivity_rule (op : Operator) (g : OrcaGrid) (p : Port) (gl v : Glyph)
    (hp : op.output_port = some p) (hnb : p.is_bang = false)
    (hr : g.peek (op.x + 1) op.y = some v) :
    op.output_write g p (some gl)
      = some (g.poke p.x p.y
          (if p.is_sensitive = true ∧ v.toLower ≠ v.toUpper ∧ v.toUpper = v
           then gl.toUpper else gl)) := by
  have hlisten : g.listen { x := op.x + 1, y := op.y } = some v := by
    unfold OrcaGrid.listen
    rw [hr]
  by_cases hcond : p.is_sensitive = true ∧ v.toLower ≠ v.toUpper ∧ v.toUpper = v
  · obtain ⟨hs, hne, hup⟩ := hcond
    have hsu : op.should_upper_case g = some true := by
      simp only [Operator.should_upper_case, hp, hlisten]
      rw [if_neg (by simp [hs])]
      rw [if_neg (by tauto)]
    simp only [Operator.output_write, hsu]
    have hcond2 : p.is_sensitive = true ∧ ¬Char.toLower v = Char.toUpper v ∧
        Char.toUpper v = v := ⟨hs, hne, hup⟩
    rw [if_pos hcond2]
    simp
  · have hsu : op.should_upper_case g = some false := by
      simp only [Operator.should_upper_case, hp, hlisten]
      by_cases hs : p.is_sensitive = true
      · rw [if_neg (by simp [hs])]
        rw [if_pos (by tauto)]
      · rw [if_pos (by simp [hs])]
    simp only [Operator.output_write, hsu]
    rw [if_neg hcond]
    simp

/-- C6 witness: the passive Add at (1, 0) on grid "1AB" with sensitive
output and upper-case right neighbor 'B' writes payload 'c' upper-cased
as 'C' at (1, 1). -/
theorem c6_sensitivity_rule_witness :
    Operator.output_write ⟨OpKind.add, 1, 0, true, 'A'⟩
        (mkGrid [['1', 'A', 'B'], ['.', '.', '.']])
        (Operator.out_sens ⟨OpKind.add, 1, 0, true, 'A'⟩) (some 'c')
      = some ((mkGrid [['1', 'A', 'B'], ['.', '.', '.']]).poke 1 1 'C') := by
  have h := c6_sensitivity_rule ⟨OpKind.add, 1, 0, true, 'A'⟩
    (mkGrid [['1', 'A', 'B'], ['.', '.', '.']])
    (Operator.out_sens ⟨OpKind.add, 1, 0, true, 'A'⟩) 'c' 'B' rfl rfl rfl
  rw [h]
  decide

lemma is_inside_poke (g : OrcaGrid) (x y a b : Int) (v : Glyph) :
    (g.poke x y v).is_inside a b = g.is_inside a b := by
  unfold OrcaGrid.is_inside
  rw [poke_rows, poke_cols]

lemma peek_lock {g g' : OrcaGrid} {a b : Int} (h : g.lock a b = some g') :
    ∀ x y, g'.peek x y = g.peek x y := by
  obtain ⟨j, row, i, hj, hrow, hi, rfl⟩ := lock_spec h
  intro x y
  rfl

/-- C2: a movement operator (east, west, north or south, with its offset)
at an in-bounds cell of a well-formed grid: when the destination is
outside the bounds it writes BANG at its own cell; when the destination
glyph is neither DOT nor BANG it writes BANG at its own cell; otherwise
it writes DOT at its origin, writes its own glyph at the destination and
locks the destination. -/
theorem c2_move_semantics (g : OrcaGrid) (op : Operator) (dx dy : Int)
    (hwf : g.WF)
    (hoff : (op.kind = .east ∧ dx = 1 ∧ dy = 0) ∨
      (op.kind = .west ∧ dx = -1 ∧ dy = 0) ∨
      (op.kind = .north ∧ dx = 0 ∧ dy = -1) ∨
      (op.kind = .south ∧ dx = 0 ∧ dy = 1))
    (hin : g.is_inside op.x op.y = true) :
    (g.is_inside (op.x + dx) (op.y + dy) = false →
        op.moveBy g dx dy = some (g.poke op.x op.y BANG_GLYPH) ∧
        (g.poke op.x op.y BANG_GLYPH).peek op.x op.y = some BANG_GLYPH) ∧
    (∀ c, g.is_inside (op.x + dx) (op.y + dy) = true →
        g.peek (op.x + dx) (op.y + dy) = some c →
        c ≠ DOT_GLYPH → c ≠ BANG_GLYPH →
        op.moveBy g dx dy = some (g.poke op.x op.y BANG_GLYPH) ∧
        (g.poke op.x op.y BANG_GLYPH).peek op.x op.y = some BANG_GLYPH) ∧
    (∀ c g', g.is_inside (op.x + dx) (op.y + dy) = true →
        g.peek (op.x + dx) (op.y + dy) = some c →
        (c = DOT_GLYPH ∨ c = BANG_GLYPH) →
        op.moveBy g dx dy = some g' →
        g'.peek (op.x + dx) (op.y + dy) = some op.glyph ∧
        g'.peek op.x op.y = some DOT_GLYPH ∧
        LockedAt g' (op.x + dx) (op.y + dy)) := by
  refine ⟨?_, ?_, ?_⟩
  · intro hout
    refine ⟨?_, peek_poke_self hwf hin⟩
    unfold Operator.moveBy
    rw [if_pos (by simp [hout])]
  · intro c hdest hpeek hd hb
    refine ⟨?_, peek_poke_self hwf hin⟩
    unfold Operator.moveBy
    rw [if_neg (by simp [hdest])]
    rw [hpeek]
    rw [if_pos ⟨by simpa using hb, by simpa using hd⟩]
  · intro c g' hdest hpeek hdb hmv
    have hne : ¬(op.x + dx = op.x ∧ op.y + dy = op.y) := by
      rcases hoff with ⟨_, h1, h2⟩ | ⟨_, h1, h2⟩ | ⟨_, h1, h2⟩ | ⟨_, h1, h2⟩ <;>
        (subst h1; subst h2; omega)
    have hwf1 : ((g.poke op.x op.y DOT_GLYPH).poke (op.x + dx) (op.y + dy)
        op.glyph).WF := WF_poke (WF_poke hwf _ _ _) _ _ _
    have hin1 : ((g.poke op.x op.y DOT_GLYPH).poke (op.x + dx) (op.y + dy)
        op.glyph).is_inside (op.x + dx) (op.y + dy) = true := by
      rw [is_inside_poke, is_inside_poke]; exact hdest
    unfold Operator.moveBy at hmv
    rw [if_neg (by simp [hdest])] at hmv
    rw [hpeek] at hmv
    rw [if_neg (by
      rcases hdb with h | h <;> simp [h])] at hmv
    rw [if_pos (by rw [is_inside_poke, is_inside_poke]; exact hdest)] at hmv
    have hlocked := lock_self_locked hmv
    have hpk := peek_lock hmv
    refine ⟨?_, ?_, hlocked⟩
    · rw [hpk]
      exact peek_poke_self (WF_poke hwf _ _ _) (by rw [is_inside_poke]; exact hdest)
    · rw [hpk]
      have hdotpeek : (g.poke op.x op.y DOT_GLYPH).peek op.x op.y
          = some DOT_GLYPH := peek_poke_self hwf hin
      rw [peek_poke_other (WF_poke hwf _ _ _)
        (by rw [is_inside_poke]; exact hdest)
        (by rw [is_inside_poke]; exact hin)
        (by intro hc; exact hne ⟨hc.1.symm, hc.2.symm⟩)]
      exact hdotpeek

/-- C2 witness: the passive East at (0, 0) on the 2x2 grid "E." / ".."
finds DOT at (1, 0), erases its origin, writes 'E' at (1, 0) and locks
it (the spec's movement-collision scenario). -/
theorem c2_move_semantics_witness :
    Operator.moveBy ⟨OpKind.east, 0, 0, true, 'E'⟩ (mkGrid [['E', '.'], ['.', '.']]) 1 0
        = some { rows := 2, cols := 2, state := [['.', 'E'], ['.', '.']],
                 locks := [[false, true], [false, false]], midi_events := [] } ∧
      ({ rows := 2, cols := 2, state := [['.', 'E'], ['.', '.']],
         locks := [[false, true], [false, false]],
         midi_events := [] } : OrcaGrid).peek 1 0 = some 'E' ∧
      ({ rows := 2, cols := 2, state := [['.', 'E'], ['.', '.']],
         locks := [[false, true], [false, false]],
         midi_events := [] } : OrcaGrid).peek 0 0 = some DOT_GLYPH ∧
      LockedAt { rows := 2, cols := 2, state := [['.', 'E'], ['.', '.']],
                 locks := [[false, true], [false, false]], midi_events := [] } 1 0 := by
  have hmv : Operator.moveBy ⟨OpKind.east, 0, 0, true, 'E'⟩
      (mkGrid [['E', '.'], ['.', '.']]) 1 0
        = some { rows := 2, cols := 2, state := [['.', 'E'], ['.', '.']],
                 locks := [[false, true], [false, false]], midi_events := [] } := by
    decide
  have h := (c2_move_semantics (mkGrid [['E', '.'], ['.', '.']])
      ⟨OpKind.east, 0, 0, true, 'E'⟩ 1 0 (by decide)
      (Or.inl ⟨rfl, rfl, rfl⟩) (by decide)).2.2 '.'
      { rows := 2, cols := 2, state := [['.', 'E'], ['.', '.']],
        locks := [[false, true], [false, false]], midi_events := [] }
      (by decide) (by decide) (Or.inl rfl) hmv
  exact ⟨hmv, by simpa using h.1, by simpa using h.2.1, h.2.2⟩

/-! Lock monotonicity: nothing in a tick ever clears a lock, so a cell
locked by an operator stays locked for the rest of the tick. -/

lemma foldlM_mono {α : Type} {f : OrcaGrid → α → Option OrcaGrid}
    (hf : ∀ gr a gr', f gr a = some gr' → ∀ x y, LockedAt gr x y → LockedAt gr' x y) :
    ∀ (l : List α) {g g' : OrcaGrid}, l.foldlM f g = some g' →
      ∀ x y, LockedAt g x y → LockedAt g' x y := by
  intro l
  induction l with
  | nil =>
    intro g g' h x y hl
    simp only [List.foldlM_nil] at h
    cases h
    exact hl
  | cons a rest ih =>
    intro g g' h x y hl
    rw [List.foldlM_cons] at h
    cases hstep : f g a with
    | none => rw [hstep] at h; exact Option.noConfusion h
    | some g1 =>
      rw [hstep] at h
      simp only [Option.bind_eq_bind, Option.some_bind] at h
      exact ih h x y (hf g a g1 hstep x y hl)

lemma foldlM_pair_mono {α β : Type} {f : OrcaGrid × β → α → Option (OrcaGrid × β)}
    (hf : ∀ acc a acc', f acc a = some acc' →
      ∀ x y, LockedAt acc.1 x y → LockedAt acc'.1 x y) :
    ∀ (l : List α) {acc acc' : OrcaGrid × β}, l.foldlM f acc = some acc' →
      ∀ x y, LockedAt acc.1 x y → LockedAt acc'.1 x y := by
  intro l
  induction l with
  | nil =>
    intro acc acc' h x y hl
    simp only [List.foldlM_nil] at h
    cases h
    exact hl
  | cons a rest ih =>
    intro acc acc' h x y hl
    rw [List.foldlM_cons] at h
    cases hstep : f acc a with
    | none => rw [hstep] at h; exact Option.noConfusion h
    | some acc1 =>
      rw [hstep] at h
      simp only [Option.bind_eq_bind, Option.some_bind] at h
      exact ih h x y (hf acc a acc1 hstep x y hl)

lemma lock_step_mono : ∀ (gr : OrcaGrid) (p : Port) (gr' : OrcaGrid),
    gr.lock p.x p.y = some gr' → ∀ x y, LockedAt gr x y → LockedAt gr' x y :=
  fun _ _ _ h _ _ hl => lock_mono h hl

lemma foldlM_lock_locks : ∀ (ps : List Port) {g g' : OrcaGrid},
    ps.foldlM (fun gr p => gr.lock p.x p.y) g = some g' →
    ∀ p ∈ ps, LockedAt g' p.x p.y := by
  intro ps
  induction ps with
  | nil => intro g g' _ p hp; cases hp
  | cons q rest ih =>
    intro g g' h p hp
    rw [List.foldlM_cons] at h
    cases hstep : g.lock q.x q.y with
    | none => rw [hstep] at h; exact Option.noConfusion h
    | some g1 =>
      rw [hstep] at h
      simp only [Option.bind_eq_bind, Option.some_bind] at h
      rcases List.mem_cons.mp hp with heq | hmem
      · subst heq
        exact foldlM_mono lock_step_mono rest h p.x p.y (lock_self_locked hstep)
      · exact ih h p hmem

lemma output_write_mono {op : Operator} {g g' : OrcaGrid} {port : Port}
    {gl : Option Glyph} (h : op.output_write g port gl = some g') :
    ∀ x y, LockedAt g x y → LockedAt g' x y := by
  unfold Operator.output_write at h
  cases gl with
  | none => cases h; exact fun _ _ hl => hl
  | some c =>
    cases hsu : op.should_upper_case g with
    | none => rw [hsu] at h; exact Option.noConfusion h
    | some b =>
      rw [hsu] at h
      cases h
      exact fun _ _ hl => locked_poke hl

lemma moveBy_mono {op : Operator} {g g' : OrcaGrid} {dx dy : Int}
    (h : op.moveBy g dx dy = some g') :
    ∀ x y, LockedAt g x y → LockedAt g' x y := by
  unfold Operator.moveBy at h
  dsimp only at h
  by_cases h1 : g.is_inside (op.x + dx) (op.y + dy) = true
  · rw [if_neg (by simp [h1])] at h
    by_cases h2 : g.peek (op.x + dx) (op.y + dy) ≠ some BANG_GLYPH ∧
        g.peek (op.x + dx) (op.y + dy) ≠ some DOT_GLYPH
    · rw [if_pos h2] at h
      cases h
      exact fun _ _ hl => locked_poke hl
    · rw [if_neg h2] at h
      by_cases h3 : ((g.poke op.x op.y DOT_GLYPH).poke (op.x + dx) (op.y + dy)
          op.glyph).is_inside (op.x + dx) (op.y + dy) = true
      · rw [if_pos h3] at h
        exact fun x y hl => lock_mono h (locked_poke (locked_poke hl))
      · rw [if_neg h3] at h
        cases h
        exact fun _ _ hl => locked_poke (locked_poke hl)
  · rw [if_pos (by simp [h1])] at h
    cases h
    exact fun _ _ hl => locked_poke hl

lemma commentLock_mono : ∀ (xs : List Int) {g g' : OrcaGrid} {yy : Int} {stop : Glyph},
    commentLock yy stop g xs = some g' → ∀ x y, LockedAt g x y → LockedAt g' x y := by
  intro xs
  induction xs with
  | nil =>
    intro g g' yy stop h x y hl
    cases h
    exact hl
  | cons xi rest ih =>
    intro g g' yy stop h x y hl
    unfold commentLock at h
    cases hstep : g.lock xi yy with
    | none =>
      rw [hstep] at h
      exact Option.noConfusion h
    | some g1 =>
      rw [hstep] at h
      simp only [Option.bind_eq_bind, Option.some_bind] at h
      have hl1 := lock_mono hstep hl
      by_cases hpk : g1.peek xi yy = some stop
      · rw [if_pos hpk] at h
        cases h
        exact hl1
      · rw [if_neg hpk] at h
        exact ih h x y hl1

lemma operation_mono {op : Operator} {rng : Rng} {g : OrcaGrid} {frame : Nat}
    {fc : Bool} {pl : Payload} {g1 : OrcaGrid} {ex : List Port}
    (h : op.operation rng g frame fc = some (pl, g1, ex)) :
    ∀ x y, LockedAt g x y → LockedAt g1 x y := by
  unfold Operator.operation at h
  cases hk : op.kind <;> rw [hk] at h <;> dsimp only at h
  case add => cases h; exact fun _ _ hl => hl
  case substract => cases h; exact fun _ _ hl => hl
  case clock =>
    rcases hm : pyMod (Int.fdiv (frame : Int) (g.listen_as_value op.port_rate))
        (g.listen_as_value op.port_mod8) with _ | v <;> rw [hm] at h
    · exact Option.noConfusion h
    · cases h; exact fun _ _ hl => hl
  case delay =>
    rcases hm : pyMod (frame : Int)
        (g.listen_as_value op.port_mod8 * g.listen_as_value op.port_rate)
        with _ | v <;> rw [hm] at h
    · exact Option.noConfusion h
    · cases h; exact fun _ _ hl => hl
  case east =>
    rcases Option.map_eq_some'.mp h with ⟨gm, hmv, heq⟩
    cases heq
    exact moveBy_mono hmv
  case west =>
    rcases Option.map_eq_some'.mp h with ⟨gm, hmv, heq⟩
    cases heq
    exact moveBy_mono hmv
  case north =>
    rcases Option.map_eq_some'.mp h with ⟨gm, hmv, heq⟩
    cases heq
    exact moveBy_mono hmv
  case south =>
    rcases Option.map_eq_some'.mp h with ⟨gm, hmv, heq⟩
    cases heq
    exact moveBy_mono hmv
  case ifOp => cases h; exact fun _ _ hl => hl
  case generator =>
    rcases Option.map_eq_some'.mp h with ⟨acc, hfold, heq⟩
    cases heq
    refine foldlM_pair_mono ?_ _ hfold
    intro a off a' hstep x y hl
    rw [Option.bind_eq_bind] at hstep
    rcases Option.bind_eq_some.mp hstep with ⟨g2, hw, hpure⟩
    cases hpure
    exact output_write_mono hw x y hl
  case halt =>
    rcases hlk : g.lock op.x (op.y + 1) with _ | gm <;> rw [hlk] at h
    · exact Option.noConfusion h
    · cases h; exact fun x y hl => lock_mono hlk hl
  case increment => cases h; exact fun _ _ hl => hl
  case multiply => cases h; exact fun _ _ hl => hl
  case random =>
    by_cases hlh : g.listen_as_value op.port_b < g.listen_as_value op.port_a
    · rw [if_pos hlh] at h; exact Option.noConfusion h
    · rw [if_neg hlh] at h; cases h; exact fun _ _ hl => hl
  case track =>
    rcases hfold : (pyRange 0 (g.listen_as_value op.port_len)).foldlM
        (fun gr offset => gr.lock (op.x + offset + 1) op.y) g with _ | gt <;>
      rw [hfold] at h
    · exact Option.noConfusion h
    · dsimp only at h
      have hmono := foldlM_mono (fun gr a gr' hs x y hl => lock_mono hs hl) _ hfold
      rcases hls : gt.listen
          { x := op.x + 1 +
              Int.fmod (g.listen_as_value op.port_key) (g.listen_as_value op.port_len),
            y := op.y } with _ | c <;> rw [hls] at h
      · cases h; exact hmono
      · cases h; exact hmono
  case bang => cases h; exact fun _ _ hl => locked_poke hl
  case comment =>
    rcases hlk : g.lock op.x op.y with _ | gm <;> rw [hlk] at h
    · exact Option.noConfusion h
    · dsimp only at h
      rcases hcl : commentLock op.y op.glyph gm (pyRange (op.x + 1) (g.cols : Int))
          with _ | gc <;> rw [hcl] at h
      · exact Option.noConfusion h
      · cases h
        exact fun x y hl => commentLock_mono _ hcl x y (lock_mono hlk hl)
  case midi =>
    split_ifs at h <;> cases h <;> exact fun _ _ hl => hl

lemma run_mono {op : Operator} {rng : Rng} {g g' : OrcaGrid} {frame : Nat} {fc : Bool}
    (h : op.run rng g frame fc = some g') :
    ∀ x y, LockedAt g x y → LockedAt g' x y := by
  unfold Operator.run at h
  rcases hop : op.operation rng g frame fc with _ | ⟨pl, g1, ex⟩
  · rw [hop] at h; exact Option.noConfusion h
  · rw [hop] at h
    simp only [Option.bind_eq_bind, Option.some_bind] at h
    dsimp only at h
    rcases hfold : ((op.base_ports ++ ex).filter (fun p => !p.is_bang)).foldlM
        (fun gr p => gr.lock p.x p.y) g1 with _ | g2
    · rw [hfold] at h; exact Option.noConfusion h
    · rw [hfold] at h
      simp only [Option.some_bind] at h
      have hm1 : ∀ x y, LockedAt g x y → LockedAt g2 x y := fun x y hl =>
        foldlM_mono lock_step_mono _ hfold x y (operation_mono hop x y hl)
      cases hout : op.output_port with
      | none =>
        rw [hout] at h
        cases h
        exact hm1
      | some p =>
        rw [hout] at h
        dsimp only at h
        by_cases hb : p.is_bang = true
        · rw [if_pos hb] at h
          cases h
          exact fun x y hl => locked_poke (hm1 x y hl)
        · rw [if_neg hb] at h
          cases pl with
          | glyph c => exact fun x y hl => output_write_mono h x y (hm1 x y hl)
          | bool b => cases h; exact hm1
          | nothing => exact fun x y hl => output_write_mono h x y (hm1 x y hl)

lemma run_locks_base {op : Operator} {rng : Rng} {g g' : OrcaGrid} {frame : Nat}
    {fc : Bool} (h : op.run rng g frame fc = some g') :
    ∀ p ∈ op.base_ports.filter (fun q => !q.is_bang), LockedAt g' p.x p.y := by
  unfold Operator.run at h
  rcases hop : op.operation rng g frame fc with _ | ⟨pl, g1, ex⟩
  · rw [hop] at h; exact Option.noConfusion h
  · rw [hop] at h
    simp only [Option.bind_eq_bind, Option.some_bind] at h
    dsimp only at h
    rcases hfold : ((op.base_ports ++ ex).filter (fun p => !p.is_bang)).foldlM
        (fun gr p => gr.lock p.x p.y) g1 with _ | g2
    · rw [hfold] at h; exact Option.noConfusion h
    · rw [hfold] at h
      simp only [Option.some_bind] at h
      intro p hp
      have hp2 : p ∈ (op.base_ports ++ ex).filter (fun q => !q.is_bang) := by
        rw [List.filter_append]
        exact List.mem_append_left _ hp
      have hg2 : LockedAt g2 p.x p.y := foldlM_lock_locks _ hfold p hp2
      cases hout : op.output_port with
      | none =>
        rw [hout] at h
        cases h
        exact hg2
      | some q =>
        rw [hout] at h
        dsimp only at h
        by_cases hb : q.is_bang = true
        · rw [if_pos hb] at h
          cases h
          exact locked_poke hg2
        · rw [if_neg hb] at h
          cases pl with
          | glyph c => exact output_write_mono h p.x p.y hg2
          | bool b => cases h; exact hg2
          | nothing => exact output_write_mono h p.x p.y hg2

lemma tick_step_mono {rng : Rng} {frame : Nat} {g g' : OrcaGrid} {op : Operator}
    (h : tick_step rng frame g op = some g') :
    ∀ x y, LockedAt g x y → LockedAt g' x y := by
  unfold tick_step at h
  rcases hlk : g.is_locked op.x op.y with _ | b
  · rw [hlk] at h; exact Option.noConfusion h
  · rw [hlk] at h
    simp only [Option.bind_eq_bind, Option.some_bind] at h
    cases b with
    | true =>
      rw [if_pos rfl] at h
      cases h
      exact fun _ _ hl => hl
    | false =>
      rw [if_neg (by simp)] at h
      by_cases hc : (op.is_passive || op.has_neighbor g BANG_GLYPH) = true
      · rw [if_pos hc] at h
        exact run_mono h
      · rw [if_neg hc] at h
        cases h
        exact fun _ _ hl => hl

lemma tick_ops_mono {rng : Rng} {frame : Nat} {ops : List Operator} {g g' : OrcaGrid}
    (h : tick_ops rng frame ops g = some g') :
    ∀ x y, LockedAt g x y → LockedAt g' x y :=
  foldlM_mono (fun _ _ _ hs => tick_step_mono hs) _ h

/-- C7 counterexample: on "1A2" / "..." at frame 0 the passive Add at
(1, 0) runs (it writes '3' at (1, 1)) yet after the tick its own cell
(1, 0) is not locked: run locks only the port cells, never the
operator's own cell. -/
theorem c7_counterexample :
    (update_grid rng0 (mkGrid [['1', 'A', '2'], ['.', '.', '.']]) 0).map
        (fun g => (g.peek 1 1, g.is_locked 1 0))
      = some (some '3', some false) := by decide

/-- C7 amended: after a tick, every operator execution that completed has
all of its declared non-bang port cells locked (the locks survive the
rest of the tick); the operator's own cell is not among them. -/
theorem c7_run_locks_port_cells (rng : Rng) (frame : Nat) (fc : Bool)
    (op : Operator) (ops : List Operator) (g gj gf : OrcaGrid) (p : Port)
    (hrun : op.run rng g frame fc = some gj)
    (hrest : tick_ops rng frame ops gj = some gf)
    (hp : p ∈ op.base_ports.filter (fun q => !q.is_bang)) :
    LockedAt gf p.x p.y :=
  tick_ops_mono hrest p.x p.y (run_locks_base hrun p hp)

/-- C7 amended witness: the Add at (1, 0) on "1A2" / "..." runs on the
reset grid with no operators after it; its a port cell (0, 0) is locked
at the end of the tick. -/
theorem c7_run_locks_port_cells_witness :
    LockedAt { rows := 2, cols := 3, state := [['1', 'A', '2'], ['.', '3', '.']],
               locks := [[true, false, true], [false, true, false]],
               midi_events := [] } 0 0 := by
  have hp : (⟨OpKind.add, 1, 0, true, 'A'⟩ : Operator).port_a ∈
      (⟨OpKind.add, 1, 0, true, 'A'⟩ : Operator).base_ports.filter
        (fun q => !q.is_bang) := by
    simp [Operator.base_ports, Operator.port_a, Operator.port_b, Operator.out_sens,
      List.filter]
  have h := c7_run_locks_port_cells rng0 0 false ⟨OpKind.add, 1, 0, true, 'A'⟩ []
    ((mkGrid [['1', 'A', '2'], ['.', '.', '.']]).reset_for_frame)
    { rows := 2, cols := 3, state := [['1', 'A', '2'], ['.', '3', '.']],
      locks := [[true, false, true], [false, true, false]], midi_events := [] }
    { rows := 2, cols := 3, state := [['1', 'A', '2'], ['.', '3', '.']],
      locks := [[true, false, true], [false, true, false]], midi_events := [] }
    (⟨OpKind.add, 1, 0, true, 'A'⟩ : Operator).port_a (by decide) rfl hp
  exact h

/-! C10: a grid whose only non-DOT cell is a lone '*' (with at least two
rows and two columns) is left unchanged by a tick. -/

/-- The row of a lone-bang grid that carries the '*' at column sx. -/
def starRow (cols sx : Nat) : List Glyph :=
  List.replicate sx DOT_GLYPH ++ [BANG_GLYPH] ++
    List.replicate (cols - sx - 1) DOT_GLYPH

/-- The glyph state whose only non-DOT cell is a '*' at (sx, sy). -/
def starState (rows cols sx sy : Nat) : List (List Glyph) :=
  List.replicate sy (List.replicate cols DOT_GLYPH) ++ [starRow cols sx] ++
    List.replicate (rows - sy - 1) (List.replicate cols DOT_GLYPH)

lemma starRow_length {cols sx : Nat} (h : sx < cols) :
    (starRow cols sx).length = cols := by
  simp [starRow]
  omega

lemma starState_length {rows cols sx sy : Nat} (h : sy < rows) :
    (starState rows cols sx sy).length = rows := by
  simp [starState]
  omega

lemma starRow_getElem? {cols sx i : Nat} (hsx : sx < cols) (hi : i < cols) :
    (starRow cols sx)[i]? = some (if i = sx then BANG_GLYPH else DOT_GLYPH) := by
  unfold starRow
  rw [List.getElem?_append, List.getElem?_append]
  by_cases h1 : i < sx
  · rw [if_pos (by simp; omega), if_pos (by simp; omega)]
    rw [List.getElem?_replicate, if_pos h1, if_neg (by omega)]
  · by_cases h2 : i = sx
    · subst h2
      rw [if_pos (by simp), if_neg (by simp)]
      simp
    · rw [if_neg (by simp; omega)]
      rw [List.getElem?_replicate]
      rw [if_pos (by simp; omega), if_neg h2]

lemma starState_getElem? {rows cols sx sy j : Nat} (hsy : sy < rows) (hj : j < rows) :
    (starState rows cols sx sy)[j]?
      = some (if j = sy then starRow cols sx
              else List.replicate cols DOT_GLYPH) := by
  unfold starState
  rw [List.getElem?_append, List.getElem?_append]
  by_cases h1 : j < sy
  · rw [if_pos (by simp; omega), if_pos (by simp; omega)]
    rw [List.getElem?_replicate, if_pos h1, if_neg (by omega)]
  · by_cases h2 : j = sy
    · subst h2
      rw [if_pos (by simp), if_neg (by simp)]
      simp
    · rw [if_neg (by simp; omega)]
      rw [List.getElem?_replicate]
      rw [if_pos (by simp; omega), if_neg h2]

lemma pyIdx_iff {n : Nat} {i : Int} {j : Nat} :
    pyIdx n i = some j ↔
      (0 ≤ i ∧ i < (n : Int) ∧ j = i.toNat) ∨
        (i < 0 ∧ -(n : Int) ≤ i ∧ j = (i + (n : Int)).toNat) := by
  unfold pyIdx
  split_ifs with h0 h1 h2 <;> simp <;> omega

lemma starPeek_bang {g : OrcaGrid} {sx sy : Nat} (hsx : sx < g.cols)
    (hsy : sy < g.rows) (hstate : g.state = starState g.rows g.cols sx sy)
    {ix iy : Int} (hp : g.peek ix iy = some BANG_GLYPH) :
    pyIdx g.rows iy = some sy ∧ pyIdx g.cols ix = some sx := by
  rw [peek_def, hstate, pyGet_def, starState_length hsy] at hp
  rcases hj : pyIdx g.rows iy with _ | j
  · rw [hj] at hp; exact Option.noConfusion hp
  · rw [hj] at hp
    simp only [Option.some_bind] at hp
    have hjlt : j < g.rows := pyIdx_some_lt hj
    rw [starState_getElem? hsy hjlt] at hp
    simp only [Option.some_bind] at hp
    by_cases hjsy : j = sy
    · subst hjsy
      rw [if_pos rfl, pyGet_def, starRow_length hsx] at hp
      rcases hi : pyIdx g.cols ix with _ | i
      · rw [hi] at hp; exact Option.noConfusion hp
      · rw [hi] at hp
        simp only [Option.some_bind] at hp
        have hilt : i < g.cols := pyIdx_some_lt hi
        rw [starRow_getElem? hsx hilt] at hp
        by_cases hisx : i = sx
        · subst hisx
          exact ⟨rfl, rfl⟩
        · rw [if_neg hisx] at hp
          simp [DOT_GLYPH, BANG_GLYPH] at hp
    · rw [if_neg hjsy, pyGet_replicate] at hp
      cases hpi : pyIdx g.cols ix <;> rw [hpi] at hp <;>
        simp [DOT_GLYPH, BANG_GLYPH] at hp

lemma star_no_bang_neighbor {g : OrcaGrid} {sx sy : Nat}
    (hrows : 2 ≤ g.rows) (hcols : 2 ≤ g.cols) (hsx : sx < g.cols)
    (hsy : sy < g.rows) (hstate : g.state = starState g.rows g.cols sx sy)
    (op : Operator) (hx : op.x = (sx : Int)) (hy : op.y = (sy : Int)) :
    op.has_neighbor g BANG_GLYPH = false := by
  unfold Operator.has_neighbor
  rw [hx, hy]
  simp only [decide_eq_false_iff_not]
  intro hp
  rcases hp with hp | hp | hp | hp
  · rcases starPeek_bang hsx hsy hstate hp with ⟨-, hix⟩
    rcases pyIdx_iff.mp hix with ⟨h1, h2, h3⟩ | ⟨h1, h2, h3⟩ <;> omega
  · rcases starPeek_bang hsx hsy hstate hp with ⟨-, hix⟩
    rcases pyIdx_iff.mp hix with ⟨h1, h2, h3⟩ | ⟨h1, h2, h3⟩ <;> omega
  · rcases starPeek_bang hsx hsy hstate hp with ⟨hiy, -⟩
    rcases pyIdx_iff.mp hiy with ⟨h1, h2, h3⟩ | ⟨h1, h2, h3⟩ <;> omega
  · rcases starPeek_bang hsx hsy hstate hp with ⟨hiy, -⟩
    rcases pyIdx_iff.mp hiy with ⟨h1, h2, h3⟩ | ⟨h1, h2, h3⟩ <;> omega

lemma filterMap_enumFrom_dots (y : Int) : ∀ (n k : Nat),
    (List.enumFrom n (List.replicate k DOT_GLYPH)).filterMap
      (fun xc => if xc.2 = DOT_GLYPH then none
                 else operator_factory xc.2 (xc.1 : Int) y) = [] := by
  intro n k
  apply List.filterMap_eq_nil_iff.mpr
  intro a ha
  obtain ⟨i, c⟩ := a
  obtain ⟨-, -, hc⟩ := List.mem_enumFrom ha
  rw [List.getElem_replicate] at hc
  subst hc
  simp

lemma parse_row_dots (y : Nat) (k : Nat) :
    parse_row y (List.replicate k DOT_GLYPH) = [] := by
  unfold parse_row
  exact filterMap_enumFrom_dots (y : Int) 0 k

lemma parse_row_star {cols sx : Nat} (y : Nat) (hsx : sx < cols) :
    parse_row y (starRow cols sx)
      = [⟨OpKind.bang, (sx : Int), (y : Int), false, BANG_GLYPH⟩] := by
  unfold parse_row starRow
  rw [List.append_assoc, List.enum_append]
  show (List.enumFrom 0 (List.replicate sx DOT_GLYPH) ++ _).filterMap _ = _
  rw [List.filterMap_append]
  rw [filterMap_enumFrom_dots]
  rw [List.length_replicate, List.enumFrom_append, List.filterMap_append]
  rw [filterMap_enumFrom_dots]
  simp [operator_factory, dispatchKind, BANG_GLYPH, DOT_GLYPH, List.enumFrom,
    OpKind.classGlyph]

lemma parse_grid_star {g : OrcaGrid} {sx sy : Nat}
    (hsx : sx < g.cols) (hsy : sy < g.rows)
    (hstate : g.state = starState g.rows g.cols sx sy) :
    parse_grid g = [⟨OpKind.bang, (sx : Int), (sy : Int), false, BANG_GLYPH⟩] := by
  unfold parse_grid
  rw [hstate]
  unfold starState
  rw [List.append_assoc, List.enum_append, List.map_append, List.flatten_append]
  have hdots : ∀ (n k : Nat),
      ((List.enumFrom n (List.replicate k (List.replicate g.cols DOT_GLYPH))).map
        (fun yr => parse_row yr.1 yr.2)).flatten = [] := by
    intro n k
    rw [List.flatten_eq_nil_iff]
    intro l hl
    rcases List.mem_map.mp hl with ⟨⟨i, row⟩, hmem, hrow⟩
    obtain ⟨-, -, hc⟩ := List.mem_enumFrom hmem
    rw [List.getElem_replicate] at hc
    subst hc
    rw [← hrow]
    exact parse_row_dots i g.cols
  show (((List.enumFrom 0 (List.replicate sy (List.replicate g.cols DOT_GLYPH))).map
      (fun yr => parse_row yr.1 yr.2)).flatten ++ _) = _
  rw [hdots]
  rw [List.length_replicate, List.enumFrom_append, List.map_append,
    List.flatten_append, hdots]
  simp only [List.enumFrom_cons, List.enumFrom_nil, List.map_cons, List.map_nil,
    List.flatten_cons, List.flatten_nil, List.append_nil, List.nil_append]
  rw [parse_row_star sy hsx]

/-- C10: for every grid with at least two rows and columns whose only
non-DOT cell is a single '*', a tick returns normally and leaves the
glyph state unchanged: the Bang operator is non-passive ('*' has no upper
case), has no BANG neighbor even through Python's negative-index
wrap-around, and so never runs; the '*' is not erased. -/
theorem c10_lone_bang_grid_unchanged (g : OrcaGrid) (sx sy : Nat) (rng : Rng)
    (frame : Nat) (hrows : 2 ≤ g.rows) (hcols : 2 ≤ g.cols)
    (hsx : sx < g.cols) (hsy : sy < g.rows)
    (hstate : g.state = starState g.rows g.cols sx sy) :
    update_grid rng g frame = some g.reset_for_frame ∧
      (g.reset_for_frame).state = g.state := by
  refine ⟨?_, rfl⟩
  unfold update_grid
  dsimp only
  have hst0 : g.reset_for_frame.state
      = starState g.reset_for_frame.rows g.reset_for_frame.cols sx sy := hstate
  rw [parse_grid_star (g := g.reset_for_frame) hsx hsy hst0]
  unfold tick_ops
  rw [List.foldlM_cons]
  have hlk : (g.reset_for_frame).is_locked (sx : Int) (sy : Int) = some false := by
    rw [is_locked_def]
    show ((pyGet (List.replicate g.rows (List.replicate g.cols false))
      ((sy : Nat) : Int)).bind fun row => pyGet row ((sx : Nat) : Int)) = some false
    rw [pyGet_replicate, pyIdx_inb (by omega) (by omega)]
    simp only [Option.map_some', Option.some_bind]
    rw [pyGet_replicate, pyIdx_inb (by omega) (by omega)]
    rfl
  have hstep : tick_step rng frame g.reset_for_frame
      ⟨OpKind.bang, (sx : Int), (sy : Int), false, BANG_GLYPH⟩
        = some g.reset_for_frame := by
    unfold tick_step
    rw [hlk]
    simp only [Option.bind_eq_bind, Option.some_bind]
    rw [if_neg (by simp)]
    rw [star_no_bang_neighbor (g := g.reset_for_frame) hrows hcols hsx hsy hst0
      ⟨OpKind.bang, (sx : Int), (sy : Int), false, BANG_GLYPH⟩ rfl rfl]
    simp
  rw [hstep]
  simp only [Option.bind_eq_bind, Option.some_bind, List.foldlM_nil]
  rfl

/-- C10 witness: the 2x2 grid with a lone '*' at (0, 0) is unchanged by a
tick at frame 0. -/
theorem c10_lone_bang_grid_unchanged_witness :
    update_grid rng0 (mkGrid [['*', '.'], ['.', '.']]) 0
        = some (mkGrid [['*', '.'], ['.', '.']]).reset_for_frame ∧
      ((mkGrid [['*', '.'], ['.', '.']]).reset_for_frame).state
        = (mkGrid [['*', '.'], ['.', '.']]).state :=
  c10_lone_bang_grid_unchanged (mkGrid [['*', '.'], ['.', '.']]) 0 0 rng0 0
    (by decide) (by decide) (by decide) (by decide) (by decide)
